import Mathlib

/-!
Verification of the asynchronous scan pipeline of the sitemap/W3C scanner
backend: the W3C validation client and batch validator
(src/backend/src/utils/w3cValidator.js), the credit ledger
(CreditService, src/backend/src/services/credit.service.js), the sitemap
parser (src/backend/src/utils/sitemap.js) and the scan worker and
cancellation path (src/backend/src/queues/scanQueue.js,
src/backend/src/services/scan.service.js).

The JavaScript sources are embedded shallowly: network and database
effects become explicit oracle parameters and state passing, JavaScript
numbers become Nat or Int, fallible calls return Except.  Timestamps
(new Date()) are modelled as a Bool flag recording whether finishedAt was
set; log statements are dropped.
-/

/-! ## W3C validation client (src/backend/src/utils/w3cValidator.js) -/

/-- Internal severity levels produced by mapW3CSeverity; the JS values are
the strings "critical", "high", "medium", "low". -/
inductive Severity where
  | critical
  | high
  | medium
  | low
deriving DecidableEq, Repr

/-- One entry of the messages array of a raw W3C Nu checker response.
Fields are optional because the external JSON may omit any of them. -/
structure W3CMessage where
  msgType : Option String
  subType : Option String
  message : Option String
  firstLine : Option Nat
  lastLine : Option Nat
  firstColumn : Option Nat
  lastColumn : Option Nat
  extract : Option String
deriving DecidableEq, Repr

/-- A processed message as built in processW3CResult: type and message
defaulted, line and column taken from lastLine/lastColumn with
firstLine/firstColumn fallback, severity from mapW3CSeverity. -/
structure ProcessedMessage where
  msgType : String
  message : String
  line : Option Nat
  column : Option Nat
  extract : Option String
  severity : Severity
deriving DecidableEq, Repr

/-- Result of validating one URL (the shape returned by validateUrl and
by the synthetic failure branch of validateUrls).  The per-result
summary object of the JS code only repeats errors.length,
warnings.length and a timestamp, so it is not duplicated here. -/
structure ValidationResult where
  url : String
  isValid : Bool
  errors : List ProcessedMessage
  warnings : List ProcessedMessage
deriving DecidableEq, Repr

/-- mapW3CSeverity from w3cValidator.js: fatal to critical, error to
high, warning to medium, info to low, default medium (also when the
subType field is absent). -/
def mapW3CSeverity : Option String → Severity
  | some "fatal" => .critical
  | some "error" => .high
  | some "warning" => .medium
  | some "info" => .low
  | _ => .medium

/-- The per-message processing of processW3CResult: defaults for type and
message, lastLine falling back to firstLine (JS: lastLine || firstLine),
likewise for columns. -/
def processMessage (m : W3CMessage) : ProcessedMessage :=
  { msgType := m.msgType.getD "unknown"
    message := m.message.getD "No message provided"
    line := match m.lastLine with
      | some l => some l
      | none => m.firstLine
    column := match m.lastColumn with
      | some c => some c
      | none => m.firstColumn
    extract := m.extract
    severity := mapW3CSeverity m.subType }

/-- The bucket loop of processW3CResult: type error goes to the error
bucket, type info with subType warning goes to the warning bucket,
anything else is dropped. -/
def bucketMessages : List W3CMessage → List ProcessedMessage × List ProcessedMessage
  | [] => ([], [])
  | m :: rest =>
    let (errs, warns) := bucketMessages rest
    if m.msgType = some "error" then
      (processMessage m :: errs, warns)
    else if m.msgType = some "info" ∧ m.subType = some "warning" then
      (errs, processMessage m :: warns)
    else
      (errs, warns)

/-- processW3CResult from w3cValidator.js.  A response without a messages
array is modelled as the empty list.  isValid is errors.length === 0. -/
def processW3CResult (messages : List W3CMessage) (url : String) : ValidationResult :=
  let bucketed := bucketMessages messages
  { url := url
    isValid := bucketed.1.length = 0
    errors := bucketed.1
    warnings := bucketed.2 }

/-- The outcome of the network interaction of validateUrl (fetch plus
JSON decoding): either the messages array of a 2xx response, or the
message of the thrown transport / non-2xx error. -/
def W3COracle : Type := String → Except String (List W3CMessage)

/-- validateUrl from w3cValidator.js: on a successful fetch the response
is processed with processW3CResult; any thrown error is rethrown wrapped
as "W3C validation failed for url: message". -/
def validateUrl (oracle : W3COracle) (url : String) : Except String ValidationResult :=
  match oracle url with
  | .ok messages => .ok (processW3CResult messages url)
  | .error e => .error ("W3C validation failed for " ++ url ++ ": " ++ e)

/-- One invocation of the progress callback of validateUrls: completed
count, total count, current URL, the result just obtained, and the error
message when that URL failed. -/
structure ProgressEvent where
  completed : Nat
  total : Nat
  current : String
  result : ValidationResult
  error : Option String
deriving DecidableEq, Repr

/-- The synthetic failed result recorded by validateUrls when validateUrl
throws: isValid false with a single critical severity error whose type is
validation_error and whose message is the thrown message. -/
def failedResult (url msg : String) : ValidationResult :=
  { url := url
    isValid := false
    errors := [{ msgType := "validation_error"
                 message := msg
                 line := none
                 column := none
                 extract := none
                 severity := .critical }]
    warnings := [] }

/-- The loop body of validateUrls, indexed by the completed count so far;
returns the collected results together with the progress callback
invocations in order.  The one second inter-request delay of the JS loop
has no observable effect in this model and is dropped. -/
def validateUrlsGo (oracle : W3COracle) (total : Nat) :
    Nat → List String → List ValidationResult × List ProgressEvent
  | _, [] => ([], [])
  | i, url :: rest =>
    let step : ValidationResult × ProgressEvent :=
      match validateUrl oracle url with
      | .ok r =>
        (r, { completed := i + 1, total := total, current := url, result := r,
              error := none })
      | .error e =>
        (failedResult url e,
         { completed := i + 1, total := total, current := url,
           result := failedResult url e, error := some e })
    let rest1 := validateUrlsGo oracle total (i + 1) rest
    (step.1 :: rest1.1, step.2 :: rest1.2)

/-- validateUrls from w3cValidator.js: sequential validation of a list of
URLs, recording a synthetic failed result when a single validation
throws, and invoking the progress callback once per URL. -/
def validateUrls (oracle : W3COracle) (urls : List String) :
    List ValidationResult × List ProgressEvent :=
  validateUrlsGo oracle urls.length 0 urls

/-! ## Aggregate summary (generateValidationSummary) -/

/-- The summary object of generateValidationSummary.  The errorTypes and
warningTypes tallies are association lists from type string to count. -/
structure ValidationSummary where
  total : Nat
  valid : Nat
  invalid : Nat
  totalErrors : Nat
  totalWarnings : Nat
  errorTypes : List (String × Nat)
  warningTypes : List (String × Nat)
  critical : Nat
  high : Nat
  medium : Nat
  low : Nat
  validPercentage : Nat
deriving DecidableEq, Repr

/-- Increment the tally of a key in an association list, mirroring
(obj[type] || 0) + 1 on a JS object used as a map. -/
def bumpTally (key : String) : List (String × Nat) → List (String × Nat)
  | [] => [(key, 1)]
  | (k, n) :: rest =>
    if k = key then (k, n + 1) :: rest else (k, n) :: bumpTally key rest

/-- Add one error severity to the severity breakdown counters. -/
def bumpSeverity (s : ValidationSummary) : Severity → ValidationSummary
  | .critical => { s with critical := s.critical + 1 }
  | .high => { s with high := s.high + 1 }
  | .medium => { s with medium := s.medium + 1 }
  | .low => { s with low := s.low + 1 }

/-- The body of the inner errors.forEach of generateValidationSummary:
bump the type tally and the severity breakdown.  The JS fallback
error.severity || medium never fires because every produced error
carries a severity; the error.type || unknown fallback likewise. -/
def tallyError (s : ValidationSummary) (e : ProcessedMessage) : ValidationSummary :=
  bumpSeverity { s with errorTypes := bumpTally e.msgType s.errorTypes } e.severity

/-- The body of the inner warnings.forEach: only the type tally is
bumped, warning severities are not counted anywhere. -/
def tallyWarning (s : ValidationSummary) (w : ProcessedMessage) : ValidationSummary :=
  { s with warningTypes := bumpTally w.msgType s.warningTypes }

/-- The body of the outer results.forEach of generateValidationSummary. -/
def tallyResult (s : ValidationSummary) (r : ValidationResult) : ValidationSummary :=
  let s :=
    if r.isValid then { s with valid := s.valid + 1 }
    else { s with invalid := s.invalid + 1 }
  let s := { s with totalErrors := s.totalErrors + r.errors.length
                    totalWarnings := s.totalWarnings + r.warnings.length }
  let s := r.errors.foldl tallyError s
  r.warnings.foldl tallyWarning s

/-- Math.round(x) for a nonnegative rational num / den given as a pair of
naturals: rounding half away from zero, i.e. floor of x + 1/2. -/
def jsRound (num den : Nat) : Nat := (2 * num + den) / (2 * den)

/-- generateValidationSummary from w3cValidator.js: fold the tally over
the result list starting from the all-zero summary, then compute the
rounded valid percentage (0 for an empty list). -/
def generateValidationSummary (results : List ValidationResult) : ValidationSummary :=
  let init : ValidationSummary :=
    { total := results.length, valid := 0, invalid := 0, totalErrors := 0,
      totalWarnings := 0, errorTypes := [], warningTypes := [],
      critical := 0, high := 0, medium := 0, low := 0, validPercentage := 0 }
  let s := results.foldl tallyResult init
  { s with validPercentage :=
      if s.total > 0 then jsRound (s.valid * 100) s.total else 0 }

/-! ## Credit ledger (CreditService, src/backend/src/services/credit.service.js) -/

/-- Errors thrown by the credit service: InsufficientCreditsError carries
its message together with the required and current amounts; every other
throw is a plain Error with a message. -/
inductive CreditError where
  | insufficient (message : String) (required current : Int)
  | failure (message : String)
deriving DecidableEq, Repr

/-- The persisted credit row of one user: none when no record exists yet,
some amount once a record exists. -/
abbrev CreditState := Option Int

/-- getCreditBalance: reads the credit row and creates a zero record when
none exists (the first-access initialisation of the JS code).  Returns
the amount together with the possibly changed persisted state. -/
def getCreditBalance : CreditState → Int × CreditState
  | none => (0, some 0)
  | some a => (a, some a)

/-- addCredits: rejects nonpositive amounts and amounts above 10000, then
atomically gets or creates the record and increments it inside one
transaction.  Returns the new amount and state. -/
def addCredits (st : CreditState) (amount : Int) : Except CreditError (Int × CreditState) :=
  if amount ≤ 0 then .error (.failure "Credit amount must be positive")
  else if amount > 10000 then
    .error (.failure "Cannot add more than 10,000 credits at once")
  else
    let cur := match st with
      | none => 0
      | some a => a
    .ok (cur + amount, some (cur + amount))

/-- The message of the InsufficientCreditsError thrown by deductCredits,
also the message the scan worker builds for an insufficient balance. -/
def insufficientMsg (required available : Int) : String :=
  s!"Insufficient credits. Required: {required}, Available: {available}"

/-- deductCredits: rejects nonpositive amounts; inside one transaction it
reads the balance, throws InsufficientCreditsError when no record exists
or the balance is below the amount, and otherwise decrements.  The
check and the decrement are a single atomic state transition, mirroring
the surrounding db transaction. -/
def deductCredits (st : CreditState) (amount : Int) : Except CreditError (Int × CreditState) :=
  if amount ≤ 0 then .error (.failure "Deduction amount must be positive")
  else
    match st with
    | none => .error (.insufficient "No credit account found" amount 0)
    | some a =>
      if a < amount then
        .error (.insufficient (insufficientMsg amount a) amount a)
      else
        .ok (a - amount, some (a - amount))

/-- refundCredits: delegates to addCredits with a refund reason; any
error from addCredits is caught and rethrown as a plain failure. -/
def refundCredits (st : CreditState) (amount : Int) : Except CreditError (Int × CreditState) :=
  match addCredits st amount with
  | .ok r => .ok r
  | .error _ => .error (.failure "Failed to refund credits")

/-- The object returned by checkSufficientCredits. -/
structure CreditCheck where
  hasSufficient : Bool
  currentAmount : Int
  requiredAmount : Int
  deficit : Int
deriving DecidableEq, Repr

/-- checkSufficientCredits: reads the balance through getCreditBalance
(which creates a zero record on first access) and reports sufficiency
with the deficit. -/
def checkSufficientCredits (st : CreditState) (requiredAmount : Int) :
    CreditCheck × CreditState :=
  let (cur, st1) := getCreditBalance st
  let hasSufficient : Bool := cur ≥ requiredAmount
  ({ hasSufficient := hasSufficient
     currentAmount := cur
     requiredAmount := requiredAmount
     deficit := if hasSufficient then 0 else requiredAmount - cur }, st1)

/-- One ledger operation of a history over one user account. -/
inductive LedgerOp where
  | deduct (amount : Int)
  | refund (amount : Int)
  | add (amount : Int)
deriving DecidableEq, Repr

/-- Apply one ledger operation: a thrown error leaves the persisted state
unchanged (the db transaction rolls back). -/
def applyLedgerOp (st : CreditState) : LedgerOp → CreditState
  | .deduct n =>
    match deductCredits st n with
    | .ok (_, st1) => st1
    | .error _ => st
  | .refund n =>
    match refundCredits st n with
    | .ok (_, st1) => st1
    | .error _ => st
  | .add n =>
    match addCredits st n with
    | .ok (_, st1) => st1
    | .error _ => st

/-- Apply a sequence of ledger operations in order. -/
def applyLedgerOps (st : CreditState) : List LedgerOp → CreditState
  | [] => st
  | op :: rest => applyLedgerOps (applyLedgerOp st op) rest

/-- The balance of a credit state is nonnegative (vacuously true when no
record exists). -/
def balanceNonneg : CreditState → Prop
  | none => True
  | some a => 0 ≤ a

/-! ## Sitemap parser (src/backend/src/utils/sitemap.js) -/

/-- One url (or sitemap) element of a parsed sitemap as produced by
xml2js: its loc children as a list of strings. -/
structure SitemapEntry where
  loc : List String
deriving DecidableEq, Repr

/-- A parsed sitemap document: the url entries of a urlset and the
sitemap entries of a sitemapindex, each absent when the document lacks
that shape.  The single-element versus array normalisation of the JS
code is already folded into the lists. -/
structure ParsedXml where
  urlset : Option (List SitemapEntry)
  sitemapindex : Option (List SitemapEntry)
deriving DecidableEq, Repr

/-- Whitespace as stripped by the JS String.prototype.trim (restricted
to the common ASCII whitespace characters). -/
def isJsSpace (c : Char) : Bool :=
  c = ' ' ∨ c = '\t' ∨ c = '\n' ∨ c = '\r'

/-- The JS trim() call on a loc text: strip leading and trailing
whitespace. -/
def jsTrim (s : String) : String :=
  ⟨((s.data.dropWhile isJsSpace).reverse.dropWhile isJsSpace).reverse⟩

/-- The per-entry extraction of extractUrlsFromParsedXml: take the first
loc text if present and nonempty, trim it, and keep it when it is still
nonempty and is a syntactically valid absolute HTTP or HTTPS URL.  The
syntactic URL check (the JS new URL parse with an http or https protocol,
used identically by isValidHttpUrl and by validateUrl of validation.ts)
is abstracted as the predicate validUrl. -/
def entryUrl (validUrl : String → Bool) (e : SitemapEntry) : Option String :=
  match e.loc.head? with
  | none => none
  | some s =>
    if s = "" then none
    else
      let u := jsTrim s
      if u ≠ "" ∧ validUrl u then some u else none

/-- The candidate URL list before deduplication: urlset entries first,
then sitemapindex entries, in document order. -/
def rawSitemapUrls (validUrl : String → Bool) (p : ParsedXml) : List String :=
  (p.urlset.getD []).filterMap (entryUrl validUrl) ++
    (p.sitemapindex.getD []).filterMap (entryUrl validUrl)

/-- Deduplication with the insertion-order semantics of a JS Set: keep
the first occurrence of each string.  The seen accumulator holds the
strings already emitted. -/
def dedupFirstAux (seen : List String) : List String → List String
  | [] => []
  | x :: xs =>
    if x ∈ seen then dedupFirstAux seen xs
    else x :: dedupFirstAux (x :: seen) xs

/-- The spread of new Set(urls) in extractUrlsFromParsedXml. -/
def dedupFirst (l : List String) : List String := dedupFirstAux [] l

/-- extractUrlsFromParsedXml: collect candidate URLs from both document
shapes, deduplicate with set semantics, then filter once more through
the URL validator (validateUrl of validation.ts, which accepts exactly
the valid absolute HTTP/HTTPS URLs, abstracted by the same predicate). -/
def extractUrlsFromParsedXml (validUrl : String → Bool) (p : ParsedXml) : List String :=
  (dedupFirst (rawSitemapUrls validUrl p)).filter validUrl

/-- parseSitemap on an already parsed document: extract the URLs and hard
fail when none remain or when the count exceeds the configured maximum
(appConfig.w3c.maxSitemapUrls). -/
def parseSitemap (validUrl : String → Bool) (maxUrls : Nat) (p : ParsedXml) :
    Except String (List String) :=
  let urls := extractUrlsFromParsedXml validUrl p
  if urls.length = 0 then .error "No URLs found in sitemap"
  else if urls.length > maxUrls then
    let n := urls.length
    let m := maxUrls
    .error s!"Sitemap contains {n} URLs, maximum allowed is {m}"
  else .ok urls

/-! ## Scan worker (src/backend/src/queues/scanQueue.js) and cancellation
(ScanService.cancelScan, src/backend/src/services/scan.service.js) -/

/-- The status enum of a Scan record. -/
inductive ScanStatus where
  | pending
  | processing
  | success
  | failed
deriving DecidableEq, Repr

/-- The fields of the Scan row the worker reads and writes.  finished
records whether finishedAt has been set. -/
structure ScanRecord where
  status : ScanStatus
  totalUrls : Nat
  errorMsg : Option String
  finished : Bool
deriving DecidableEq, Repr

/-- One persisted ScanResult row (checkedAt timestamps dropped). -/
structure ScanResultRow where
  url : String
  errors : List ProcessedMessage
  warnings : List ProcessedMessage
  isValid : Bool
deriving DecidableEq, Repr

/-- The persisted state the worker touches: the scan row, the credit row
of the owning user, and the scanResult rows. -/
structure SysState where
  scan : ScanRecord
  credit : CreditState
  rows : List ScanResultRow
deriving Repr

/-- The external world of one worker execution: the outcome of
validateAndParseSitemap (the resolved URL list, or the error message of
a failed resolution), the W3C oracle, and whether the bulk insert of
results succeeds (modelling database availability at step 4). -/
structure WorkerEnv where
  sitemap : Except String (List String)
  w3c : W3COracle
  persistOk : Bool

/-- The outcome of one worker execution: the final persisted state, the
credits deducted and refunded during this execution, and whether the job
completed (false means the worker rethrew and the queue may retry). -/
structure WorkerRun where
  state : SysState
  deducted : Int
  refunded : Int
  ok : Bool

/-- The catch block of the worker: mark the scan failed with the message
and finishedAt, then refund scan.totalUrls credits whenever the
persisted totalUrls is positive; a refund error is swallowed.  Returns
the new state and the amount actually refunded. -/
def handleFailure (st : SysState) (msg : String) : SysState × Int :=
  let scan := { st.scan with status := .failed, finished := true, errorMsg := some msg }
  if scan.totalUrls > 0 then
    match refundCredits st.credit (scan.totalUrls : Int) with
    | .ok (_, credit) => ({ st with scan := scan, credit := credit }, (scan.totalUrls : Int))
    | .error _ => ({ st with scan := scan }, 0)
  else
    ({ st with scan := scan }, 0)

/-- The message of a thrown credit error as seen by the worker catch. -/
def creditErrorMessage : CreditError → String
  | .insufficient m _ _ => m
  | .failure m => m

/-- The worker body of scanQueue.js: set the scan processing, resolve the
sitemap, persist totalUrls, check and deduct credits, validate all URLs,
persist the results and mark the scan success; any thrown error is
caught by handleFailure and the job fails (ok false). -/
def scanWorker (env : WorkerEnv) (st0 : SysState) : WorkerRun :=
  let stP := { st0 with scan := { st0.scan with status := .processing } }
  match env.sitemap with
  | .error e =>
    let msg := if e = "" then "Invalid sitemap" else e
    let (st1, r) := handleFailure stP msg
    { state := st1, deducted := 0, refunded := r, ok := false }
  | .ok urls =>
    let stU := { stP with scan := { stP.scan with totalUrls := urls.length } }
    let (check, credit1) := checkSufficientCredits stU.credit (urls.length : Int)
    let stC := { stU with credit := credit1 }
    if !check.hasSufficient then
      let (st1, r) := handleFailure stC (insufficientMsg (urls.length : Int) check.currentAmount)
      { state := st1, deducted := 0, refunded := r, ok := false }
    else
      match deductCredits stC.credit (urls.length : Int) with
      | .error err =>
        let (st1, r) := handleFailure stC (creditErrorMessage err)
        { state := st1, deducted := 0, refunded := r, ok := false }
      | .ok (_, credit2) =>
        let stD := { stC with credit := credit2 }
        let (results, _events) := validateUrls env.w3c urls
        if env.persistOk then
          let newRows := results.map (fun r =>
            { url := r.url, errors := r.errors, warnings := r.warnings,
              isValid := r.isValid : ScanResultRow })
          let stS := { stD with
            rows := stD.rows ++ newRows,
            scan := { stD.scan with status := .success, finished := true } }
          { state := stS, deducted := (urls.length : Int), refunded := 0, ok := true }
        else
          let (st1, r) := handleFailure stD "Database error while saving scan results"
          { state := st1, deducted := (urls.length : Int), refunded := r, ok := false }

/-- Up to k attempts of the same job, as performed by the queue retry
policy (attempts 3 in the queue configuration): a failed attempt is
retried on the state it left behind, a completed attempt stops the
sequence.  Returns the final state with the total credits deducted and
refunded across all attempts. -/
def runAttempts (env : WorkerEnv) : SysState → Nat → SysState × Int × Int
  | st, 0 => (st, 0, 0)
  | st, k + 1 =>
    let r := scanWorker env st
    if r.ok then (r.state, r.deducted, r.refunded)
    else
      let rest := runAttempts env r.state k
      (rest.1, r.deducted + rest.2.1, r.refunded + rest.2.2)

/-- The URL count the environment resolves to (0 when resolution fails),
used to state bounds on credit deductions. -/
def envUrlCount (env : WorkerEnv) : Nat :=
  match env.sitemap with
  | .ok urls => urls.length
  | .error _ => 0

/-- An atomic write to the status column of one Scan row: the
unconditional updates of the worker, or one ScanService.cancelScan
call. -/
inductive ScanAction where
  | setStatus (s : ScanStatus)
  | cancel
deriving DecidableEq, Repr

/-- The status effect of one action.  cancelScan writes failed (with the
message Cancelled by user) only when the current status is pending or
processing; otherwise it throws ConflictError and writes nothing. -/
def applyAction (st : ScanStatus) : ScanAction → ScanStatus
  | .setStatus s => s
  | .cancel => if st = .pending ∨ st = .processing then .failed else st

/-- The sequence of status values observed over time when the actions run
in order from the start status (the start value included). -/
def statusTrace (start : ScanStatus) : List ScanAction → List ScanStatus
  | [] => [start]
  | a :: rest => start :: statusTrace (applyAction start a) rest

/-- The status writes one worker execution performs, in order: the
unconditional processing update at the top, then exactly one terminal
update (success on completion, failed in the catch block). -/
def workerActions (env : WorkerEnv) (st : SysState) : List ScanAction :=
  [.setStatus .processing, .setStatus (scanWorker env st).state.scan.status]

/-- An interleaving of two action sequences preserving the order of
each. -/
inductive Merge2 : List ScanAction → List ScanAction → List ScanAction → Prop where
  | nil : Merge2 [] [] []
  | left (x : ScanAction) {xs ys zs : List ScanAction} :
      Merge2 xs ys zs → Merge2 (x :: xs) ys (x :: zs)
  | right (y : ScanAction) {xs ys zs : List ScanAction} :
      Merge2 xs ys zs → Merge2 xs (y :: ys) (y :: zs)

/-- The monotonic-status property of the specification: the observed
status sequence is a prefix of pending, processing, success or of
pending, processing, failed. -/
def monotoneTrace (t : List ScanStatus) : Bool :=
  t.isPrefixOf [.pending, .processing, .success] ||
    t.isPrefixOf [.pending, .processing, .failed]

/-! ## Concrete scenario inputs used by the claim checks below -/

/-- The total per-URL step of validateUrls: the result of validateUrl
when it succeeds, the synthetic failed result when it throws. -/
def validateOneTotal (oracle : W3COracle) (u : String) : ValidationResult :=
  match validateUrl oracle u with
  | .ok r => r
  | .error e => failedResult u e

/-- A fresh scan record as created by ScanService.createScan: status
pending, totalUrls 0. -/
def freshScan : ScanRecord :=
  { status := .pending, totalUrls := 0, errorMsg := none, finished := false }

/-- Environment of the insufficient-credits scenario: the sitemap
resolves to five URLs; the W3C oracle is never reached. -/
def insufEnv : WorkerEnv :=
  { sitemap := .ok ["https://site.example/a", "https://site.example/b",
      "https://site.example/c", "https://site.example/d", "https://site.example/e"]
    w3c := fun _ => .error "unreachable"
    persistOk := true }

/-- Initial state of the insufficient-credits scenario: a pending scan
and a user holding two credits. -/
def insufState : SysState :=
  { scan := freshScan, credit := some 2, rows := [] }

/-- Environment of the cancellation race scenario: a one-URL sitemap, a
clean W3C response, persistence succeeds, so the worker completes. -/
def raceEnv : WorkerEnv :=
  { sitemap := .ok ["https://site.example/a"]
    w3c := fun _ => .ok []
    persistOk := true }

/-- Initial state of the cancellation race scenario. -/
def raceState : SysState :=
  { scan := freshScan, credit := some 5, rows := [] }

/-- The interleaved schedule of the cancellation race: the worker writes
processing, the owner cancels, the worker finishes and writes success. -/
def raceSchedule : List ScanAction :=
  [.setStatus .processing, .cancel, .setStatus .success]

/-- Environment of the retry scenario: a two-URL sitemap, clean W3C
responses, but the bulk insert of results fails, so every attempt throws
after the deduction step. -/
def retryEnv : WorkerEnv :=
  { sitemap := .ok ["https://site.example/a", "https://site.example/b"]
    w3c := fun _ => .ok []
    persistOk := false }

/-- Initial state of the retry scenario: four credits, enough for the
deduction of two attempts. -/
def retryState : SysState :=
  { scan := freshScan, credit := some 4, rows := [] }

/-! ## Claim checks: credit ledger -/

/-- A refund of more than 10000 credits fails: refundCredits delegates to
addCredits, whose single top-up ceiling rejects the amount, so the claim
that a refund never fails because the amount is too large is false. -/
theorem refundCredits_rejects_large_amount :
    refundCredits (some 0) 10001 = .error (.failure "Failed to refund credits") ∧
    0 < (10001 : Int) := by
  constructor
  · rfl
  · decide

/-- Amended C4: for every user balance and every positive amount up to
the 10000 ceiling inherited from addCredits, refundCredits succeeds and
atomically increments the balance by the amount; larger amounts fail. -/
theorem refundCredits_increments_within_cap (st : CreditState) (amount : Int)
    (h1 : 0 < amount) (h2 : amount ≤ 10000) :
    refundCredits st amount =
      .ok ((getCreditBalance st).1 + amount, some ((getCreditBalance st).1 + amount)) := by
  unfold refundCredits addCredits
  rw [if_neg (by omega), if_neg (by omega)]
  cases st <;> rfl

/-- Witness for the amended C4 at a concrete balance and amount. -/
theorem refundCredits_increments_within_cap_witness :
    refundCredits (some 3) 5 =
      .ok ((getCreditBalance (some 3)).1 + 5, some ((getCreditBalance (some 3)).1 + 5)) :=
  refundCredits_increments_within_cap (some 3) 5 (by decide) (by decide)

/-- For a user without a credit record, checkSufficientCredits is not a
pure read: through getCreditBalance it creates a zero-balance record, so
the persisted state changes from no record to a record of amount 0. -/
theorem checkSufficientCredits_creates_record :
    (checkSufficientCredits none 3).2 = some 0 ∧
    (checkSufficientCredits none 3).2 ≠ none := by
  constructor
  · rfl
  · simp [checkSufficientCredits, getCreditBalance]

/-- Amended C5: checkSufficientCredits returns hasSufficient, the current
and required amounts and the deficit (required minus current when
insufficient, else 0); it leaves an existing credit record unchanged,
but for a user without a record it creates a zero-balance record (the
first-access initialisation of getCreditBalance). -/
theorem checkSufficientCredits_fields (st : CreditState) (req : Int) :
    (checkSufficientCredits st req).1.currentAmount = (getCreditBalance st).1 ∧
    (checkSufficientCredits st req).1.requiredAmount = req ∧
    (checkSufficientCredits st req).1.hasSufficient = decide (req ≤ (getCreditBalance st).1) ∧
    ((checkSufficientCredits st req).1.hasSufficient = true →
      (checkSufficientCredits st req).1.deficit = 0) ∧
    ((checkSufficientCredits st req).1.hasSufficient = false →
      (checkSufficientCredits st req).1.deficit = req - (getCreditBalance st).1) ∧
    (checkSufficientCredits st req).2 = some (getCreditBalance st).1 := by
  cases st <;>
    refine ⟨rfl, rfl, rfl, ?_, ?_, rfl⟩ <;>
      · intro hs
        simp only [checkSufficientCredits, getCreditBalance, ge_iff_le,
          decide_eq_true_eq, decide_eq_false_iff_not] at hs ⊢
        simp [hs]

/-- Witness for the amended C5 at a concrete balance and requirement. -/
theorem checkSufficientCredits_fields_witness :
    (checkSufficientCredits (some 2) 5).1.currentAmount = (getCreditBalance (some 2)).1 ∧
    (checkSufficientCredits (some 2) 5).1.requiredAmount = 5 ∧
    (checkSufficientCredits (some 2) 5).1.deficit = 5 - (getCreditBalance (some 2)).1 ∧
    (checkSufficientCredits (some 2) 5).2 = some (getCreditBalance (some 2)).1 := by
  obtain ⟨h1, h2, _, _, h5, h6⟩ := checkSufficientCredits_fields (some 2) 5
  exact ⟨h1, h2, h5 (by decide), h6⟩

/-- One ledger operation starting from a nonnegative (or absent) balance
leaves the balance nonnegative. -/
theorem applyLedgerOp_nonneg (st : CreditState) (h : balanceNonneg st) (op : LedgerOp) :
    balanceNonneg (applyLedgerOp st op) := by
  cases op with
  | deduct n =>
    cases st with
    | none =>
      have hd : applyLedgerOp none (.deduct n) = none := by
        simp only [applyLedgerOp, deductCredits]
        split_ifs <;> rfl
      rw [hd]
      exact h
    | some a =>
      simp only [applyLedgerOp, deductCredits]
      simp only [balanceNonneg] at h
      split_ifs <;> simp [balanceNonneg] <;> omega
  | refund n =>
    cases st with
    | none =>
      simp only [applyLedgerOp, refundCredits, addCredits]
      split_ifs <;> simp [balanceNonneg] <;> omega
    | some a =>
      simp only [applyLedgerOp, refundCredits, addCredits]
      simp only [balanceNonneg] at h
      split_ifs <;> simp [balanceNonneg] <;> omega
  | add n =>
    cases st with
    | none =>
      simp only [applyLedgerOp, addCredits]
      split_ifs <;> simp [balanceNonneg] <;> omega
    | some a =>
      simp only [applyLedgerOp, addCredits]
      simp only [balanceNonneg] at h
      split_ifs <;> simp [balanceNonneg] <;> omega

/-- C6: over every sequence of deduct, refund and add operations from a
nonnegative starting balance the balance never becomes negative; and
deductCredits fails with InsufficientCreditsError exactly when the
balance is below the (positive) amount, otherwise it decrements — check
and decrement being one atomic transition of the persisted state. -/
theorem balance_never_negative_and_deduct_atomic
    (ops : List LedgerOp) (st : CreditState) (h : balanceNonneg st) :
    balanceNonneg (applyLedgerOps st ops) ∧
    (∀ a n : Int, 0 < n → a < n →
      deductCredits (some a) n = .error (.insufficient (insufficientMsg n a) n a)) ∧
    (∀ a n : Int, 0 < n → n ≤ a →
      deductCredits (some a) n = .ok (a - n, some (a - n))) := by
  refine ⟨?_, ?_, ?_⟩
  · induction ops generalizing st with
    | nil => exact h
    | cons op rest ih => exact ih _ (applyLedgerOp_nonneg st h op)
  · intro a n hn hlt
    unfold deductCredits
    rw [if_neg (by omega)]
    simp only
    rw [if_pos hlt]
  · intro a n hn hle
    unfold deductCredits
    rw [if_neg (by omega)]
    simp only
    rw [if_neg (by omega)]

/-- Witness for C6 on a concrete operation sequence and concrete
deductions. -/
theorem balance_never_negative_and_deduct_atomic_witness :
    balanceNonneg (applyLedgerOps (some 5) [.deduct 3, .refund 3, .add 2, .deduct 10]) ∧
    deductCredits (some 2) 5 = .error (.insufficient (insufficientMsg 5 2) 5 2) ∧
    deductCredits (some 7) 5 = .ok (7 - 5, some (7 - 5)) := by
  obtain ⟨h1, h2, h3⟩ :=
    balance_never_negative_and_deduct_atomic
      [.deduct 3, .refund 3, .add 2, .deduct 10] (some 5)
      (by unfold balanceNonneg; omega)
  exact ⟨h1, h2 2 5 (by omega) (by omega), h3 7 5 (by omega) (by omega)⟩

/-! ## Claim checks: scan worker -/

/-- The catch handler always leaves the scan failed with the message and
finishedAt set. -/
theorem handleFailure_scan (st : SysState) (msg : String) :
    (handleFailure st msg).1.scan.status = .failed ∧
    (handleFailure st msg).1.scan.errorMsg = some msg ∧
    (handleFailure st msg).1.scan.finished = true := by
  unfold handleFailure
  dsimp only
  split
  · split <;> exact ⟨rfl, rfl, rfl⟩
  · exact ⟨rfl, rfl, rfl⟩

/-- Every worker execution ends with the scan in a terminal status:
success on the completion path, failed through the catch handler. -/
theorem scanWorker_terminal (env : WorkerEnv) (st : SysState) :
    (scanWorker env st).state.scan.status = .success ∨
    (scanWorker env st).state.scan.status = .failed := by
  unfold scanWorker
  rcases env.sitemap with e | urls
  · exact .inr (handleFailure_scan _ _).1
  · simp only
    split
    · exact .inr (handleFailure_scan _ _).1
    · split
      · exact .inr (handleFailure_scan _ _).1
      · split
        · exact .inl rfl
        · exact .inr (handleFailure_scan _ _).1

/-- C1 scenario: the sitemap resolves to 5 URLs, the user holds 2
credits.  The worker persists totalUrls = 5, the sufficiency check fails,
the scan ends failed with the message naming required 5 and available 2,
and 0 credits are deducted — but the failure handler then refunds
scan.totalUrls = 5 credits that were never deducted (its guard only
checks totalUrls > 0, which already holds before the deduction step), so
the balance rises from 2 to 7 instead of staying at 2. -/
theorem scanWorker_insufficient_credits_refunds_undeducted :
    (scanWorker insufEnv insufState).state.scan.status = .failed ∧
    (scanWorker insufEnv insufState).state.scan.errorMsg =
      some "Insufficient credits. Required: 5, Available: 2" ∧
    (scanWorker insufEnv insufState).state.scan.totalUrls = 5 ∧
    (scanWorker insufEnv insufState).deducted = 0 ∧
    (scanWorker insufEnv insufState).refunded = 5 ∧
    (scanWorker insufEnv insufState).state.credit = some 7 := by
  refine ⟨rfl, ?_, rfl, rfl, rfl, rfl⟩
  decide

/-- The monotonic-status claim fails under an interleaving: a cancelScan
that runs between the processing write and the terminal write of a
completing worker is overwritten, so the observed sequence is pending,
processing, failed, success — not a prefix of either allowed chain.  The
schedule is an interleaving of the actions of one worker execution with
one cancelScan call. -/
theorem statusTrace_cancel_race_not_monotone :
    Merge2 (workerActions raceEnv raceState) [.cancel] raceSchedule ∧
    statusTrace .pending raceSchedule =
      [.pending, .processing, .failed, .success] ∧
    monotoneTrace (statusTrace .pending raceSchedule) = false := by
  refine ⟨?_, by decide, by decide⟩
  have h : workerActions raceEnv raceState =
      [.setStatus .processing, .setStatus .success] := by decide
  rw [h]
  exact .left _ (.right _ (.left _ .nil))

/-- Amended C2: each operation in isolation is forward-only — a single
worker execution run to completion produces exactly the status sequence
pending, processing, success or pending, processing, failed, and a
cancelScan call alone moves pending or processing to failed and never
changes a terminal status.  Only an interleaving of the two (or a queue
retry of a failed job re-entering the worker) can overwrite a terminal
status, as in the cancellation race above. -/
theorem scan_status_monotone_per_operation (env : WorkerEnv) (st : SysState) :
    (statusTrace .pending (workerActions env st) =
        [.pending, .processing, .success] ∨
      statusTrace .pending (workerActions env st) =
        [.pending, .processing, .failed]) ∧
    applyAction .pending .cancel = .failed ∧
    applyAction .processing .cancel = .failed ∧
    applyAction .success .cancel = .success ∧
    applyAction .failed .cancel = .failed := by
  refine ⟨?_, by decide, by decide, by decide, by decide⟩
  rcases scanWorker_terminal env st with h | h <;>
    simp [workerActions, statusTrace, applyAction, h]

/-- Each single worker execution deducts either nothing or exactly the
resolved URL count. -/
theorem scanWorker_deducted_cases (env : WorkerEnv) (st : SysState) :
    (scanWorker env st).deducted = 0 ∨
    (scanWorker env st).deducted = (envUrlCount env : Int) := by
  unfold scanWorker envUrlCount
  rcases env.sitemap with e | urls
  · exact .inl rfl
  · simp only
    split
    · exact .inl rfl
    · split
      · exact .inl rfl
      · split
        · exact .inr rfl
        · exact .inr rfl

/-- The double-deduction counterexample: a two-URL sitemap whose result
persistence fails makes every attempt deduct 2 credits after the prior
attempt refunded them, so two attempts deduct 4 credits in total for a
scan whose URL count is 2 — the claimed bound of at most the URL count
across all attempts is false. -/
theorem runAttempts_double_deduction :
    (runAttempts retryEnv retryState 2).2.1 = 4 ∧
    envUrlCount retryEnv = 2 ∧
    ¬ ((runAttempts retryEnv retryState 2).2.1 ≤ (envUrlCount retryEnv : Int)) := by
  refine ⟨by decide, by decide, by decide⟩

/-- Amended C3: the worker has no idempotency guard, so each attempt that
reaches the deduction step deducts the full URL count again; the total
deducted across k attempts is bounded by k times the URL count (and by
the URL count per attempt), not by the URL count per scan. -/
theorem runAttempts_deduction_bound (env : WorkerEnv) (st : SysState) (k : Nat) :
    (runAttempts env st k).2.1 ≤ (k : Int) * (envUrlCount env : Int) := by
  induction k generalizing st with
  | zero => simp [runAttempts]
  | succ k ih =>
    have hN : (0 : Int) ≤ (envUrlCount env : Int) := Int.natCast_nonneg _
    have hkN : (0 : Int) ≤ (k : Int) * (envUrlCount env : Int) :=
      mul_nonneg (Int.natCast_nonneg _) hN
    have hd := scanWorker_deducted_cases env st
    unfold runAttempts
    dsimp only
    split
    · rcases hd with h | h <;> rw [h] <;> push_cast <;> nlinarith
    · have hrest := ih (scanWorker env st).state
      rcases hd with h | h <;> rw [h] <;> push_cast <;> push_cast at hrest <;> nlinarith

/-! ## Claim checks: batch validator -/

/-- validateUrl returns results carrying the URL it was asked about. -/
theorem validateOneTotal_url (oracle : W3COracle) (u : String) :
    (validateOneTotal oracle u).url = u := by
  unfold validateOneTotal validateUrl
  rcases oracle u with e | msgs <;> rfl

/-- The results of the batch loop are exactly the per-URL outcomes, in
input order. -/
theorem validateUrlsGo_results (oracle : W3COracle) (total : Nat) :
    ∀ (i : Nat) (urls : List String),
      (validateUrlsGo oracle total i urls).1 = urls.map (validateOneTotal oracle) := by
  intro i urls
  induction urls generalizing i with
  | nil => rfl
  | cons u rest ih =>
    simp only [validateUrlsGo, List.map]
    rw [ih (i + 1)]
    unfold validateOneTotal
    rcases validateUrl oracle u with e | r <;> rfl

/-- The progress callback is invoked once per URL, in input order. -/
theorem validateUrlsGo_events_current (oracle : W3COracle) (total : Nat) :
    ∀ (i : Nat) (urls : List String),
      (validateUrlsGo oracle total i urls).2.map (fun ev => ev.current) = urls := by
  intro i urls
  induction urls generalizing i with
  | nil => rfl
  | cons u rest ih =>
    simp only [validateUrlsGo, List.map]
    rw [ih (i + 1)]
    rcases validateUrl oracle u with e | r <;> rfl

/-- C7: validateUrls never fails as a whole; it returns exactly one
result per input URL in input order (each carrying its URL), the result
list is the pointwise per-URL outcome (the validateUrl result when it
succeeds, the synthetic failed result when it throws, processing
continuing with the next URL), the synthetic result has isValid false
with a single critical-severity error whose message is the thrown
transport error, and the progress callback is invoked exactly once per
URL in input order. -/
theorem validateUrls_batch_complete (oracle : W3COracle) (urls : List String) :
    (validateUrls oracle urls).1.length = urls.length ∧
    (validateUrls oracle urls).1.map (fun r => r.url) = urls ∧
    (validateUrls oracle urls).1 = urls.map (validateOneTotal oracle) ∧
    (validateUrls oracle urls).2.length = urls.length ∧
    (validateUrls oracle urls).2.map (fun ev => ev.current) = urls ∧
    (∀ u e, (failedResult u e).isValid = false ∧
      (failedResult u e).errors.length = 1 ∧
      (failedResult u e).errors.map (fun m => m.severity) = [Severity.critical] ∧
      (failedResult u e).errors.map (fun m => m.message) = [e]) ∧
    (∀ u e, validateUrl oracle u = .error e →
      validateOneTotal oracle u = failedResult u e) := by
  have hres : (validateUrls oracle urls).1 = urls.map (validateOneTotal oracle) :=
    validateUrlsGo_results oracle urls.length 0 urls
  have hev : (validateUrls oracle urls).2.map (fun ev => ev.current) = urls :=
    validateUrlsGo_events_current oracle urls.length 0 urls
  refine ⟨?_, ?_, hres, ?_, hev, ?_, ?_⟩
  · rw [hres, List.length_map]
  · rw [hres, List.map_map]
    have hcomp : ((fun r => ValidationResult.url r) ∘ validateOneTotal oracle) =
        fun u => u := by
      funext u
      exact validateOneTotal_url oracle u
    rw [hcomp]
    simp
  · have := congrArg List.length hev
    simpa using this
  · intro u e
    exact ⟨rfl, rfl, rfl, rfl⟩
  · intro u e h
    unfold validateOneTotal
    rw [h]

/-- Witness for C7 instantiating the synthetic-result conjunct at a
throwing oracle. -/
theorem validateUrls_batch_complete_witness :
    validateOneTotal (fun _ => .error "down") "https://b.example/" =
      failedResult "https://b.example/"
        "W3C validation failed for https://b.example/: down" := by
  obtain ⟨-, -, -, -, -, -, h7⟩ :=
    validateUrls_batch_complete (fun _ => .error "down") ["https://b.example/"]
  exact h7 "https://b.example/" "W3C validation failed for https://b.example/: down"
    (by rfl)

/-- Every per-URL outcome satisfies the validity invariant. -/
theorem validateOneTotal_isValid (oracle : W3COracle) (u : String) :
    ((validateOneTotal oracle u).isValid = true ↔ (validateOneTotal oracle u).errors = []) := by
  unfold validateOneTotal validateUrl
  rcases oracle u with e | msgs
  · simp [failedResult]
  · simp [processW3CResult, List.length_eq_zero]

/-- C8: the isValid flag of every produced validation result equals
emptiness of its error collection — for every result of the validation
client (processW3CResult) and for every element of a batch validator
output (hence for every persisted ScanResult, which copies these
fields). -/
theorem isValid_iff_no_errors (oracle : W3COracle) (urls : List String)
    (msgs : List W3CMessage) (u : String) :
    ((processW3CResult msgs u).isValid = true ↔ (processW3CResult msgs u).errors = []) ∧
    (∀ r ∈ (validateUrls oracle urls).1, r.isValid = true ↔ r.errors = []) := by
  constructor
  · simp [processW3CResult, List.length_eq_zero]
  · intro r hr
    have hr2 : r ∈ urls.map (validateOneTotal oracle) := by
      rw [← validateUrlsGo_results oracle urls.length 0 urls]
      exact hr
    obtain ⟨v, _, rfl⟩ := List.mem_map.mp hr2
    exact validateOneTotal_isValid oracle v

/-- Witness for C8 at a concrete oracle, URL list and member result. -/
theorem isValid_iff_no_errors_witness :
    ((processW3CResult [] "https://a.example/").isValid = true ↔
      (processW3CResult [] "https://a.example/").errors = []) ∧
    ((validateOneTotal (fun _ => .ok []) "https://a.example/").isValid = true ↔
      (validateOneTotal (fun _ => .ok []) "https://a.example/").errors = []) := by
  obtain ⟨h1, h2⟩ :=
    isValid_iff_no_errors (fun _ => .ok []) ["https://a.example/"] [] "https://a.example/"
  refine ⟨h1, h2 _ ?_⟩
  show _ ∈ (validateUrlsGo (fun _ => .ok []) 1 0 ["https://a.example/"]).1
  rw [validateUrlsGo_results (fun _ => .ok []) 1 0 ["https://a.example/"]]
  exact List.mem_map.mpr ⟨"https://a.example/", by simp, rfl⟩

/-! ## Claim checks: sitemap parser -/

/-- Membership in the deduplication loop: kept exactly when present in
the remainder and not already emitted. -/
theorem dedupFirstAux_mem (u : String) :
    ∀ (l seen : List String), u ∈ dedupFirstAux seen l ↔ u ∈ l ∧ u ∉ seen := by
  intro l
  induction l with
  | nil =>
    intro seen
    simp [dedupFirstAux]
  | cons x xs ih =>
    intro seen
    simp only [dedupFirstAux]
    split_ifs with hx
    · rw [ih seen]
      simp only [List.mem_cons]
      constructor
      · rintro ⟨h1, h2⟩
        exact ⟨Or.inr h1, h2⟩
      · rintro ⟨rfl | h1, h2⟩
        · exact absurd hx h2
        · exact ⟨h1, h2⟩
    · simp only [List.mem_cons, ih (x :: seen), List.mem_cons]
      by_cases hux : u = x
      · subst hux
        tauto
      · tauto

/-- The deduplication loop emits no duplicates. -/
theorem dedupFirstAux_nodup : ∀ (l seen : List String), (dedupFirstAux seen l).Nodup := by
  intro l
  induction l with
  | nil =>
    intro seen
    simp [dedupFirstAux]
  | cons x xs ih =>
    intro seen
    simp only [dedupFirstAux]
    split_ifs with hx
    · exact ih seen
    · refine List.nodup_cons.mpr ⟨?_, ih (x :: seen)⟩
      intro hmem
      rw [dedupFirstAux_mem] at hmem
      exact hmem.2 (List.mem_cons_self x seen)

/-- Set-spread semantics: dedupFirst keeps exactly the members, once. -/
theorem dedupFirst_mem (u : String) (l : List String) :
    u ∈ dedupFirst l ↔ u ∈ l := by
  unfold dedupFirst
  rw [dedupFirstAux_mem]
  simp

/-- dedupFirst output has no duplicates. -/
theorem dedupFirst_nodup (l : List String) : (dedupFirst l).Nodup :=
  dedupFirstAux_nodup l []

/-- C9: the resolver output contains each unique candidate URL exactly
once (set-semantics deduplication — the list is duplicate-free and its
members are exactly the syntactically valid candidate URLs, entries
failing the URL check being skipped rather than failing extraction), and
parseSitemap hard-fails exactly when the resulting URL count is zero or
exceeds the configured maximum, returning the extracted list
otherwise. -/
theorem parseSitemap_dedup_skip_limits (validUrl : String → Bool) (maxUrls : Nat)
    (p : ParsedXml) :
    (extractUrlsFromParsedXml validUrl p).Nodup ∧
    (∀ u, u ∈ extractUrlsFromParsedXml validUrl p ↔
      (u ∈ rawSitemapUrls validUrl p ∧ validUrl u = true)) ∧
    (∀ l, parseSitemap validUrl maxUrls p = .ok l →
      l = extractUrlsFromParsedXml validUrl p) ∧
    ((∃ l, parseSitemap validUrl maxUrls p = .ok l) ↔
      (0 < (extractUrlsFromParsedXml validUrl p).length ∧
        (extractUrlsFromParsedXml validUrl p).length ≤ maxUrls)) := by
  refine ⟨?_, ?_, ?_, ?_⟩
  · exact (dedupFirst_nodup _).filter _
  · intro u
    unfold extractUrlsFromParsedXml
    rw [List.mem_filter, dedupFirst_mem]
  · intro l hl
    unfold parseSitemap at hl
    dsimp only at hl
    split_ifs at hl
    exact (Except.ok.inj hl).symm
  · constructor
    · rintro ⟨l, hl⟩
      unfold parseSitemap at hl
      dsimp only at hl
      split_ifs at hl with h0 hmax
      exact ⟨by omega, by omega⟩
    · rintro ⟨h0, hmax⟩
      refine ⟨extractUrlsFromParsedXml validUrl p, ?_⟩
      unfold parseSitemap
      dsimp only
      rw [if_neg (by omega), if_neg (by omega)]

/-- A concrete URL-validity predicate for witnesses: HTTPS prefix,
checked on the character list so that it evaluates by reduction. -/
def sampleValid (s : String) : Bool := s.data.take 8 = "https://".data

/-- A concrete parsed sitemap with a duplicate loc entry and an invalid
entry. -/
def sampleSitemap : ParsedXml :=
  { urlset := some [{ loc := ["https://a.example/"] },
                    { loc := ["https://a.example/"] },
                    { loc := ["ftp://x.example/"] }]
    sitemapindex := none }

/-- Witness for C9 at a concrete sitemap: the duplicate is removed, the
invalid entry is skipped, and parsing succeeds within the limit. -/
theorem parseSitemap_dedup_skip_limits_witness :
    (extractUrlsFromParsedXml sampleValid sampleSitemap).Nodup ∧
    ("https://a.example/" ∈ extractUrlsFromParsedXml sampleValid sampleSitemap ↔
      ("https://a.example/" ∈ rawSitemapUrls sampleValid sampleSitemap ∧
        sampleValid "https://a.example/" = true)) ∧
    ["https://a.example/"] = extractUrlsFromParsedXml sampleValid sampleSitemap ∧
    (∃ l, parseSitemap sampleValid 10 sampleSitemap = .ok l) := by
  obtain ⟨h1, h2, h3, h4⟩ := parseSitemap_dedup_skip_limits sampleValid 10 sampleSitemap
  exact ⟨h1, h2 "https://a.example/", h3 ["https://a.example/"] (by rfl),
    h4.mpr (by decide)⟩

/-! ## Claim checks: aggregate summary -/

/-- One warning tally changes no counter field. -/
theorem foldl_tallyWarning_counts (ws : List ProcessedMessage) :
    ∀ (s : ValidationSummary),
      (ws.foldl tallyWarning s).total = s.total ∧
      (ws.foldl tallyWarning s).valid = s.valid ∧
      (ws.foldl tallyWarning s).invalid = s.invalid ∧
      (ws.foldl tallyWarning s).totalErrors = s.totalErrors ∧
      (ws.foldl tallyWarning s).totalWarnings = s.totalWarnings ∧
      (ws.foldl tallyWarning s).critical = s.critical ∧
      (ws.foldl tallyWarning s).high = s.high ∧
      (ws.foldl tallyWarning s).medium = s.medium ∧
      (ws.foldl tallyWarning s).low = s.low ∧
      (ws.foldl tallyWarning s).validPercentage = s.validPercentage := by
  induction ws with
  | nil =>
    intro s
    exact ⟨rfl, rfl, rfl, rfl, rfl, rfl, rfl, rfl, rfl, rfl⟩
  | cons w ws ih =>
    intro s
    simp only [List.foldl_cons]
    exact ih (tallyWarning s w)

/-- One error tally bumps exactly one severity counter and nothing
else among the counters. -/
theorem tallyError_counts (s : ValidationSummary) (e : ProcessedMessage) :
    (tallyError s e).total = s.total ∧
    (tallyError s e).valid = s.valid ∧
    (tallyError s e).invalid = s.invalid ∧
    (tallyError s e).totalErrors = s.totalErrors ∧
    (tallyError s e).totalWarnings = s.totalWarnings ∧
    (tallyError s e).critical + (tallyError s e).high + (tallyError s e).medium +
      (tallyError s e).low = s.critical + s.high + s.medium + s.low + 1 ∧
    (tallyError s e).validPercentage = s.validPercentage := by
  unfold tallyError
  cases e.severity <;>
    exact ⟨rfl, rfl, rfl, rfl, rfl, by simp [bumpSeverity]; omega, rfl⟩

/-- Folding the error tally adds the error count to the severity
breakdown total and preserves the other counters. -/
theorem foldl_tallyError_counts (es : List ProcessedMessage) :
    ∀ (s : ValidationSummary),
      (es.foldl tallyError s).total = s.total ∧
      (es.foldl tallyError s).valid = s.valid ∧
      (es.foldl tallyError s).invalid = s.invalid ∧
      (es.foldl tallyError s).totalErrors = s.totalErrors ∧
      (es.foldl tallyError s).totalWarnings = s.totalWarnings ∧
      (es.foldl tallyError s).critical + (es.foldl tallyError s).high +
        (es.foldl tallyError s).medium + (es.foldl tallyError s).low =
        s.critical + s.high + s.medium + s.low + es.length ∧
      (es.foldl tallyError s).validPercentage = s.validPercentage := by
  induction es with
  | nil =>
    intro s
    exact ⟨rfl, rfl, rfl, rfl, rfl, by simp, rfl⟩
  | cons e es ih =>
    intro s
    simp only [List.foldl_cons, List.length_cons]
    obtain ⟨h1, h2, h3, h4, h5, h6, h7⟩ := ih (tallyError s e)
    obtain ⟨g1, g2, g3, g4, g5, g6, g7⟩ := tallyError_counts s e
    exact ⟨h1.trans g1, h2.trans g2, h3.trans g3, h4.trans g4, h5.trans g5,
      by omega, h7.trans g7⟩

/-- The two inner folds of one result tally, over an arbitrary base. -/
theorem tallyResult_folds (r : ValidationResult) (sb : ValidationSummary) :
    (r.warnings.foldl tallyWarning (r.errors.foldl tallyError sb)).total = sb.total ∧
    (r.warnings.foldl tallyWarning (r.errors.foldl tallyError sb)).valid = sb.valid ∧
    (r.warnings.foldl tallyWarning (r.errors.foldl tallyError sb)).invalid = sb.invalid ∧
    (r.warnings.foldl tallyWarning (r.errors.foldl tallyError sb)).totalErrors =
      sb.totalErrors ∧
    (r.warnings.foldl tallyWarning (r.errors.foldl tallyError sb)).totalWarnings =
      sb.totalWarnings ∧
    (r.warnings.foldl tallyWarning (r.errors.foldl tallyError sb)).critical +
      (r.warnings.foldl tallyWarning (r.errors.foldl tallyError sb)).high +
      (r.warnings.foldl tallyWarning (r.errors.foldl tallyError sb)).medium +
      (r.warnings.foldl tallyWarning (r.errors.foldl tallyError sb)).low =
      sb.critical + sb.high + sb.medium + sb.low + r.errors.length ∧
    (r.warnings.foldl tallyWarning (r.errors.foldl tallyError sb)).validPercentage =
      sb.validPercentage := by
  obtain ⟨e1, e2, e3, e4, e5, e6, e7⟩ := foldl_tallyError_counts r.errors sb
  obtain ⟨w1, w2, w3, w4, w5, w6, w7, w8, w9, w10⟩ :=
    foldl_tallyWarning_counts r.warnings (r.errors.foldl tallyError sb)
  exact ⟨w1.trans e1, w2.trans e2, w3.trans e3, w4.trans e4, w5.trans e5,
    by omega, w10.trans e7⟩

/-- One result tally: total unchanged, exactly one of valid/invalid
bumped, error and warning counts added, error severities added to the
breakdown, warning severities not counted anywhere. -/
theorem tallyResult_counts (s : ValidationSummary) (r : ValidationResult) :
    (tallyResult s r).total = s.total ∧
    (r.isValid = true →
      (tallyResult s r).valid = s.valid + 1 ∧ (tallyResult s r).invalid = s.invalid) ∧
    (r.isValid = false →
      (tallyResult s r).valid = s.valid ∧ (tallyResult s r).invalid = s.invalid + 1) ∧
    (tallyResult s r).totalErrors = s.totalErrors + r.errors.length ∧
    (tallyResult s r).totalWarnings = s.totalWarnings + r.warnings.length ∧
    (tallyResult s r).critical + (tallyResult s r).high + (tallyResult s r).medium +
      (tallyResult s r).low = s.critical + s.high + s.medium + s.low + r.errors.length ∧
    (tallyResult s r).validPercentage = s.validPercentage := by
  unfold tallyResult
  dsimp only
  by_cases hv : r.isValid
  · rw [if_pos hv]
    obtain ⟨k1, k2, k3, k4, k5, k6, k7⟩ :=
      tallyResult_folds r
        { s with valid := s.valid + 1,
                 totalErrors := s.totalErrors + r.errors.length,
                 totalWarnings := s.totalWarnings + r.warnings.length }
    exact ⟨k1, fun _ => ⟨k2, k3⟩, fun hf => by simp [hv] at hf, k4, k5, k6, k7⟩
  · rw [if_neg hv]
    obtain ⟨k1, k2, k3, k4, k5, k6, k7⟩ :=
      tallyResult_folds r
        { s with invalid := s.invalid + 1,
                 totalErrors := s.totalErrors + r.errors.length,
                 totalWarnings := s.totalWarnings + r.warnings.length }
    exact ⟨k1, fun ht => absurd ht hv, fun _ => ⟨k2, k3⟩, k4, k5, k6, k7⟩

/-- Folding the result tally accumulates all counters. -/
theorem foldl_tallyResult_counts (rs : List ValidationResult) :
    ∀ (s : ValidationSummary),
      (rs.foldl tallyResult s).total = s.total ∧
      (rs.foldl tallyResult s).valid = s.valid + rs.countP (fun r => r.isValid) ∧
      (rs.foldl tallyResult s).invalid = s.invalid + rs.countP (fun r => !r.isValid) ∧
      (rs.foldl tallyResult s).totalErrors =
        s.totalErrors + (rs.map (fun r => r.errors.length)).sum ∧
      (rs.foldl tallyResult s).totalWarnings =
        s.totalWarnings + (rs.map (fun r => r.warnings.length)).sum ∧
      (rs.foldl tallyResult s).critical + (rs.foldl tallyResult s).high +
        (rs.foldl tallyResult s).medium + (rs.foldl tallyResult s).low =
        s.critical + s.high + s.medium + s.low + (rs.map (fun r => r.errors.length)).sum ∧
      (rs.foldl tallyResult s).validPercentage = s.validPercentage := by
  induction rs with
  | nil =>
    intro s
    simp
  | cons r rs ih =>
    intro s
    simp only [List.foldl_cons, List.countP_cons, List.map_cons, List.sum_cons]
    obtain ⟨h1, h2, h3, h4, h5, h6, h7⟩ := ih (tallyResult s r)
    obtain ⟨g1, g2t, g2f, g4, g5, g6, g7⟩ := tallyResult_counts s r
    by_cases hv : r.isValid
    · obtain ⟨gv, gi⟩ := g2t hv
      refine ⟨h1.trans g1, ?_, ?_, by omega, by omega, by omega, h7.trans g7⟩
      · rw [h2, gv]
        simp [hv]
        omega
      · rw [h3, gi]
        simp [hv]
    · have hv' : r.isValid = false := by simp [hv]
      obtain ⟨gv, gi⟩ := g2f hv'
      refine ⟨h1.trans g1, ?_, ?_, by omega, by omega, by omega, h7.trans g7⟩
      · rw [h2, gv]
        simp [hv']
      · rw [h3, gi]
        simp [hv']
        omega

/-- Total over a Bool predicate and its negation. -/
theorem countP_isValid_split (rs : List ValidationResult) :
    rs.countP (fun r => r.isValid) + rs.countP (fun r => !r.isValid) = rs.length := by
  induction rs with
  | nil => rfl
  | cons r rs ih =>
    by_cases hv : r.isValid <;>
      simp only [List.countP_cons, hv, List.length_cons] <;>
      simp <;> omega

/-- C10: the summary of generateValidationSummary satisfies valid +
invalid = total = the length of the result list, valid and invalid count
the isValid flags, totalErrors and totalWarnings sum the buckets, the
four severity counters (fed only by error entries — warning severities
are never tallied) sum to totalErrors, and validPercentage is the
rounded percentage of valid results, 0 for an empty list. -/
theorem generateValidationSummary_spec (results : List ValidationResult) :
    (generateValidationSummary results).total = results.length ∧
    (generateValidationSummary results).valid = results.countP (fun r => r.isValid) ∧
    (generateValidationSummary results).invalid = results.countP (fun r => !r.isValid) ∧
    (generateValidationSummary results).valid + (generateValidationSummary results).invalid =
      results.length ∧
    (generateValidationSummary results).totalErrors =
      (results.map (fun r => r.errors.length)).sum ∧
    (generateValidationSummary results).totalWarnings =
      (results.map (fun r => r.warnings.length)).sum ∧
    (generateValidationSummary results).critical + (generateValidationSummary results).high +
      (generateValidationSummary results).medium + (generateValidationSummary results).low =
      (generateValidationSummary results).totalErrors ∧
    (generateValidationSummary results).validPercentage =
      (if results.length = 0 then 0
       else jsRound (results.countP (fun r => r.isValid) * 100) results.length) := by
  obtain ⟨h1, h2, h3, h4, h5, h6, h7⟩ :=
    foldl_tallyResult_counts results
      { total := results.length, valid := 0, invalid := 0, totalErrors := 0,
        totalWarnings := 0, errorTypes := [], warningTypes := [],
        critical := 0, high := 0, medium := 0, low := 0, validPercentage := 0 }
  dsimp only at h1 h2 h3 h4 h5 h6 h7
  unfold generateValidationSummary
  dsimp only
  have hcount := countP_isValid_split results
  refine ⟨h1, by omega, by omega, by omega, by omega, by omega, by omega, ?_⟩
  rw [h1, h2]
  by_cases h0 : results.length = 0
  · rw [if_pos h0, if_neg (by omega)]
  · rw [if_pos (by omega), if_neg h0]
    simp
